import Mathlib

/-!
Shallow embedding of `pkg/security/scc/byrestrictions.go` (openshift-origin):
the SCC restrictiveness scorer `pointValue` with its sub-scores
`volumePointValue` and `capabilitiesPointValue`, and the sort comparator
`ByRestrictions.Less`.  The repository file carries two historical revisions
of the same algorithm; the newer revision (the one exercised by
`byrestrictions_test.go`, with the 10x weight scale and the capability clamp
at 10000) is embedded at top level, and the older small-scale revision is
embedded in namespace `Legacy`.  Go `int` is modelled as `Int`; the string
enums of the k8s/security API are modelled as inductives with an `other`
constructor for every unrecognized tag, and `Capability` as `String`.
-/

/-- A POSIX-style capability token (`kapi.Capability`, a Go string type). -/
abbrev Capability := String

/-- The constant `kapi.CapabilityAll`, the `"*"` wildcard capability.  The unit test
(`"allow star"` expecting 9000) pins this string value: `["*"]` must take the
first wildcard branch of `capabilitiesPointValue`. -/
def capabilityAll : Capability := "*"

/-- The enum `securityapi.FSType`: volume source kinds.  The scorer only distinguishes
the named kinds below; every other tag falls to the `default` case of the Go
switch, modelled by the `other` constructor. -/
inductive FSType where
  | hostPath
  | all
  | secret
  | configMap
  | emptyDir
  | downwardAPI
  | projected
  | none
  | other (tag : String)
deriving DecidableEq

/-- The enum `securityapi.SELinuxContextStrategyType`; `other` covers every
unrecognized tag (the Go switch has no default case, adding 0). -/
inductive SELinuxContextStrategyType where
  | runAsAny
  | mustRunAs
  | other (tag : String)
deriving DecidableEq

/-- The enum `securityapi.RunAsUserStrategyType`; `other` covers every unrecognized
tag (the Go switch has no default case, adding 0). -/
inductive RunAsUserStrategyType where
  | runAsAny
  | mustRunAsNonRoot
  | mustRunAsRange
  | mustRunAs
  | other (tag : String)
deriving DecidableEq

/-- The fields of `securityapi.SecurityContextConstraints` read by the
scorer.  `SELinuxContext.Type` and `RunAsUser.Type` are flattened to the one
field of each option struct the scorer touches. -/
structure SecurityContextConstraints where
  allowPrivilegedContainer : Bool := false
  volumes : List FSType := []
  seLinuxContextType : SELinuxContextStrategyType := .other ""
  runAsUserType : RunAsUserStrategyType := .other ""
  defaultAddCapabilities : List Capability := []
  allowedCapabilities : List Capability := []
  requiredDropCapabilities : List Capability := []
deriving DecidableEq

/-- The zero value of the Go struct: all booleans false, all strings empty,
all slices nil. -/
def defaultSCC : SecurityContextConstraints := {}

/-- Function `hasCap` from the source: linear membership scan of `needle` in
`haystack`. -/
def hasCap (needle : Capability) (haystack : List Capability) : Bool :=
  haystack.any (fun c => needle == c)

/-- The loop of `volumePointValue`: one pass over the volume list updating
the pair `(hasHostVolume, hasNonTrivialVolume)`.  The Go `break` inside the
switch leaves only the switch, not the loop, so the fold runs over the whole
list exactly as the source does. -/
def volumeFlags (volumes : List FSType) : Bool × Bool :=
  volumes.foldl
    (fun acc v =>
      match v with
      | .hostPath => (true, acc.2)
      | .all => (true, acc.2)
      | .secret => acc
      | .configMap => acc
      | .emptyDir => acc
      | .downwardAPI => acc
      | .projected => acc
      | .none => acc
      | .other _ => (acc.1, true))
    (false, false)

/-- Function `volumePointValue` (newer revision): 100000 for a host volume grant,
50000 for any non-trivial volume, otherwise 0. -/
def volumePointValue (scc : SecurityContextConstraints) : Int :=
  let flags := volumeFlags scc.volumes
  if flags.1 then 100000
  else if flags.2 then 50000
  else 0

/-- Function `capabilitiesPointValue` (newer revision): base 5000, +300 per
default-add capability, +4000 for a wildcard (`"*"` alias `kapi.CapabilityAll`,
or the literal `"ALL"`) in the allowed list else +10 per allowed capability,
-3000 for a literal `"ALL"` in the required-drop list else -50 per dropped
capability, clamped to [0, 10000]. -/
def capabilitiesPointValue (scc : SecurityContextConstraints) : Int :=
  let points : Int := 5000
  let points := points + 300 * scc.defaultAddCapabilities.length
  let points :=
    if hasCap capabilityAll scc.allowedCapabilities then points + 4000
    else if hasCap "ALL" scc.allowedCapabilities then points + 4000
    else points + 10 * scc.allowedCapabilities.length
  let points :=
    if hasCap "ALL" scc.requiredDropCapabilities then points - 3000
    else points - 50 * scc.requiredDropCapabilities.length
  if points > 10000 then 10000
  else if points < 0 then 0
  else points

/-- The SELinux strategy switch of `pointValue` (newer revision): 40000 for
`RunAsAny`, 10000 for `MustRunAs`, 0 for anything else. -/
def seLinuxPoints : SELinuxContextStrategyType → Int
  | .runAsAny => 40000
  | .mustRunAs => 10000
  | .other _ => 0

/-- The RunAsUser strategy switch of `pointValue` (newer revision): 40000 /
30000 / 20000 / 10000 for the four recognized tiers, 0 for anything else. -/
def runAsUserPoints : RunAsUserStrategyType → Int
  | .runAsAny => 40000
  | .mustRunAsNonRoot => 30000
  | .mustRunAsRange => 20000
  | .mustRunAs => 10000
  | .other _ => 0

/-- Function `pointValue` (newer revision): 200000 for privileged containers, plus
the volume and capability sub-scores, plus the two strategy switches. -/
def pointValue (constraint : SecurityContextConstraints) : Int :=
  (if constraint.allowPrivilegedContainer then 200000 else 0)
    + volumePointValue constraint
    + capabilitiesPointValue constraint
    + seLinuxPoints constraint.seLinuxContextType
    + runAsUserPoints constraint.runAsUserType

/-- Type `ByRestrictions` is the slice of SCCs being sorted. -/
def ByRestrictions := List SecurityContextConstraints

/-- Method `ByRestrictions.Less i j` from the source returns
`pointValue(s[i]) < pointValue(s[j])`; out-of-range indices (never produced
by the Go sort driver) read the zero-value SCC. -/
def ByRestrictions.Less (s : ByRestrictions) (i j : Nat) : Bool :=
  pointValue ((List.getD s i defaultSCC)) < pointValue ((List.getD s j defaultSCC))

namespace Legacy

/-- Function `volumePointValue` of the older revision: 10000 / 5000 / 0 with the same
host / non-trivial / trivial classification. -/
def volumePointValue (scc : SecurityContextConstraints) : Int :=
  let flags := volumeFlags scc.volumes
  if flags.1 then 10000
  else if flags.2 then 5000
  else 0

/-- Function `capabilitiesPointValue` of the older revision: base 500, +30 per
default-add, +300 for `kapi.CapabilityAll` in the allowed list else +10 per
allowed capability, -50 per dropped capability (no drop-all case), clamped
to [0, 1000]. -/
def capabilitiesPointValue (scc : SecurityContextConstraints) : Int :=
  let points : Int := 500
  let points := points + 30 * scc.defaultAddCapabilities.length
  let points :=
    if hasCap capabilityAll scc.allowedCapabilities then points + 300
    else points + 10 * scc.allowedCapabilities.length
  let points := points - 50 * scc.requiredDropCapabilities.length
  if points > 1000 then 1000
  else if points < 0 then 0
  else points

/-- Function `pointValue` of the older revision: same 200000 privilege term and the
same two strategy switches, over the small-scale sub-scores. -/
def pointValue (constraint : SecurityContextConstraints) : Int :=
  (if constraint.allowPrivilegedContainer then 200000 else 0)
    + volumePointValue constraint
    + capabilitiesPointValue constraint
    + seLinuxPoints constraint.seLinuxContextType
    + runAsUserPoints constraint.runAsUserType

end Legacy

/-! ### Derived forms and bounds -/

/-- The final clamp of `capabilitiesPointValue` to the interval [0, 10000]. -/
def clampCap (x : Int) : Int :=
  if x > 10000 then 10000
  else if x < 0 then 0
  else x

/-- The capability-allow branch of `capabilitiesPointValue`: 4000 for either
wildcard token, else 10 per listed capability. -/
def allowTerm (l : List Capability) : Int :=
  if hasCap capabilityAll l then 4000
  else if hasCap "ALL" l then 4000
  else 10 * l.length

/-- The capability-drop branch of `capabilitiesPointValue`: 3000 for a
literal `"ALL"`, else 50 per listed capability (returned as the amount
subtracted). -/
def dropTerm (l : List Capability) : Int :=
  if hasCap "ALL" l then 3000
  else 50 * l.length

lemma capabilitiesPointValue_eq (p : SecurityContextConstraints) :
    capabilitiesPointValue p =
      clampCap (5000 + 300 * p.defaultAddCapabilities.length
        + allowTerm p.allowedCapabilities - dropTerm p.requiredDropCapabilities) := by
  unfold capabilitiesPointValue clampCap allowTerm dropTerm
  dsimp only
  split_ifs <;> omega

lemma clampCap_nonneg (x : Int) : 0 ≤ clampCap x := by
  unfold clampCap; split_ifs <;> omega

lemma clampCap_le (x : Int) : clampCap x ≤ 10000 := by
  unfold clampCap; split_ifs <;> omega

lemma clampCap_mono {x y : Int} (h : x ≤ y) : clampCap x ≤ clampCap y := by
  unfold clampCap; split_ifs <;> omega

lemma capabilitiesPointValue_nonneg (p : SecurityContextConstraints) :
    0 ≤ capabilitiesPointValue p := by
  rw [capabilitiesPointValue_eq]; exact clampCap_nonneg _

lemma capabilitiesPointValue_le (p : SecurityContextConstraints) :
    capabilitiesPointValue p ≤ 10000 := by
  rw [capabilitiesPointValue_eq]; exact clampCap_le _

lemma volumePointValue_nonneg (p : SecurityContextConstraints) :
    0 ≤ volumePointValue p := by
  unfold volumePointValue; dsimp only; split_ifs <;> omega

lemma volumePointValue_le (p : SecurityContextConstraints) :
    volumePointValue p ≤ 100000 := by
  unfold volumePointValue; dsimp only; split_ifs <;> omega

lemma seLinuxPoints_nonneg (t : SELinuxContextStrategyType) : 0 ≤ seLinuxPoints t := by
  cases t <;> simp [seLinuxPoints]

lemma seLinuxPoints_le (t : SELinuxContextStrategyType) : seLinuxPoints t ≤ 40000 := by
  cases t <;> simp [seLinuxPoints]

lemma runAsUserPoints_nonneg (t : RunAsUserStrategyType) : 0 ≤ runAsUserPoints t := by
  cases t <;> simp [runAsUserPoints]

lemma runAsUserPoints_le (t : RunAsUserStrategyType) : runAsUserPoints t ≤ 40000 := by
  cases t <;> simp [runAsUserPoints]

lemma legacyCapabilitiesPV_nonneg (p : SecurityContextConstraints) :
    0 ≤ Legacy.capabilitiesPointValue p := by
  unfold Legacy.capabilitiesPointValue; dsimp only; split_ifs <;> omega

lemma legacyCapabilitiesPV_le (p : SecurityContextConstraints) :
    Legacy.capabilitiesPointValue p ≤ 1000 := by
  unfold Legacy.capabilitiesPointValue; dsimp only; split_ifs <;> omega

lemma legacyVolumePV_nonneg (p : SecurityContextConstraints) :
    0 ≤ Legacy.volumePointValue p := by
  unfold Legacy.volumePointValue; dsimp only; split_ifs <;> omega

lemma legacyVolumePV_le (p : SecurityContextConstraints) :
    Legacy.volumePointValue p ≤ 10000 := by
  unfold Legacy.volumePointValue; dsimp only; split_ifs <;> omega

/-- The host-volume test of the first switch case: `FSTypeHostPath` or
`FSTypeAll`. -/
def isHostVolume : FSType → Bool
  | .hostPath => true
  | .all => true
  | _ => false

/-- Membership in the fixed trivial set of the second switch case:
{Secret, ConfigMap, EmptyDir, DownwardAPI, Projected, None}. -/
def isTrivialVolume : FSType → Bool
  | .secret => true
  | .configMap => true
  | .emptyDir => true
  | .downwardAPI => true
  | .projected => true
  | .none => true
  | _ => false

/-- The `default` case of the volume switch: any tag not named by a case. -/
def isOtherVolume : FSType → Bool
  | .other _ => true
  | _ => false

lemma volumeFlags_foldl (a b : Bool) (vs : List FSType) :
    (vs.foldl
      (fun acc v =>
        match v with
        | .hostPath => (true, acc.2)
        | .all => (true, acc.2)
        | .secret => acc
        | .configMap => acc
        | .emptyDir => acc
        | .downwardAPI => acc
        | .projected => acc
        | .none => acc
        | .other _ => (acc.1, true))
      (a, b))
    = (a || vs.any isHostVolume, b || vs.any isOtherVolume) := by
  induction vs generalizing a b with
  | nil => simp
  | cons v t ih =>
      cases v <;>
        simp [List.any_cons, ih, isHostVolume, isOtherVolume, Bool.or_assoc]

lemma volumeFlags_spec (vs : List FSType) :
    volumeFlags vs = (vs.any isHostVolume, vs.any isOtherVolume) := by
  unfold volumeFlags
  simpa using volumeFlags_foldl false false vs

lemma any_nontrivial_of_no_host {vs : List FSType}
    (h : vs.any isHostVolume = false) :
    vs.any (fun v => !isTrivialVolume v) = vs.any isOtherVolume := by
  induction vs with
  | nil => simp
  | cons v t ih =>
      simp only [List.any_cons, Bool.or_eq_false_iff] at h
      cases v <;>
        simp_all [List.any_cons, isHostVolume, isTrivialVolume, isOtherVolume]

lemma hasCap_append (x c : Capability) (l : List Capability) :
    hasCap x (l ++ [c]) = (hasCap x l || (x == c)) := by
  simp [hasCap]

lemma allowTerm_append_mono (l : List Capability) (c : Capability)
    (h1 : c ≠ capabilityAll) (h2 : c ≠ "ALL") :
    allowTerm l ≤ allowTerm (l ++ [c]) := by
  have e1 : (capabilityAll == c) = false := by
    simp [capabilityAll]
    exact fun h => absurd h.symm h1
  have e2 : (("ALL" : Capability) == c) = false := by
    simp
    exact fun h => absurd h.symm h2
  unfold allowTerm
  rw [hasCap_append, hasCap_append, e1, e2]
  simp only [Bool.or_false, List.length_append, List.length_cons,
    List.length_nil]
  split_ifs <;> omega

lemma allowTerm_wildcard {l : List Capability}
    (h : (hasCap capabilityAll l || hasCap "ALL" l) = true) :
    allowTerm l = 4000 := by
  unfold allowTerm
  split_ifs with h1 h2 <;> simp_all

lemma dropTerm_append_mono (l : List Capability) (c : Capability)
    (h : c ≠ "ALL") :
    dropTerm l ≤ dropTerm (l ++ [c]) := by
  have e : (("ALL" : Capability) == c) = false := by
    simp
    exact fun h' => absurd h'.symm h
  unfold dropTerm
  rw [hasCap_append, e]
  simp only [Bool.or_false, List.length_append, List.length_cons,
    List.length_nil]
  split_ifs <;> omega

lemma volumePointValue_congr {p q : SecurityContextConstraints}
    (h : p.volumes = q.volumes) :
    volumePointValue p = volumePointValue q := by
  unfold volumePointValue; rw [h]

lemma capabilitiesPointValue_congr {p q : SecurityContextConstraints}
    (h1 : p.defaultAddCapabilities = q.defaultAddCapabilities)
    (h2 : p.allowedCapabilities = q.allowedCapabilities)
    (h3 : p.requiredDropCapabilities = q.requiredDropCapabilities) :
    capabilitiesPointValue p = capabilitiesPointValue q := by
  unfold capabilitiesPointValue; rw [h1, h2, h3]

lemma volumePointValue_of_nil (p : SecurityContextConstraints)
    (h : p.volumes = []) : volumePointValue p = 0 := by
  unfold volumePointValue
  rw [h]
  rfl

lemma capabilitiesPointValue_of_empty (p : SecurityContextConstraints)
    (h1 : p.defaultAddCapabilities = [])
    (h2 : p.allowedCapabilities = [])
    (h3 : p.requiredDropCapabilities = []) :
    capabilitiesPointValue p = 5000 := by
  unfold capabilitiesPointValue
  rw [h1, h2, h3]
  rfl

/-! ### Claim theorems -/

/-- C1: for every pair of profiles A and B, if A has
`AllowPrivilegedContainer` true and B has it false, then
`score(A) > score(B)` whatever the volume set, SELinux strategy, user
strategy, and the three capability lists are in either profile — in both
revisions of the scorer. -/
theorem scc_privileged_always_less_restrictive :
    (∀ A B : SecurityContextConstraints,
      A.allowPrivilegedContainer = true → B.allowPrivilegedContainer = false →
      pointValue B < pointValue A) ∧
    (∀ A B : SecurityContextConstraints,
      A.allowPrivilegedContainer = true → B.allowPrivilegedContainer = false →
      Legacy.pointValue B < Legacy.pointValue A) := by
  refine ⟨fun A B hA hB => ?_, fun A B hA hB => ?_⟩
  · have h1 := volumePointValue_le B
    have h2 := capabilitiesPointValue_le B
    have h3 := seLinuxPoints_le B.seLinuxContextType
    have h4 := runAsUserPoints_le B.runAsUserType
    have h5 := volumePointValue_nonneg A
    have h6 := capabilitiesPointValue_nonneg A
    have h7 := seLinuxPoints_nonneg A.seLinuxContextType
    have h8 := runAsUserPoints_nonneg A.runAsUserType
    have h9 := volumePointValue_nonneg B
    have h10 := capabilitiesPointValue_nonneg B
    have h11 := seLinuxPoints_nonneg B.seLinuxContextType
    have h12 := runAsUserPoints_nonneg B.runAsUserType
    unfold pointValue
    simp only [hA, hB, if_true, Bool.false_eq_true, if_false]
    linarith
  · have h1 := legacyVolumePV_le B
    have h2 := legacyCapabilitiesPV_le B
    have h3 := seLinuxPoints_le B.seLinuxContextType
    have h4 := runAsUserPoints_le B.runAsUserType
    have h5 := legacyVolumePV_nonneg A
    have h6 := legacyCapabilitiesPV_nonneg A
    have h7 := seLinuxPoints_nonneg A.seLinuxContextType
    have h8 := runAsUserPoints_nonneg A.runAsUserType
    unfold Legacy.pointValue
    simp only [hA, hB, if_true, Bool.false_eq_true, if_false]
    linarith

/-- Witness for C1 at the zero-value SCC against the privileged SCC. -/
theorem scc_privileged_always_less_restrictive_witness :
    pointValue defaultSCC < pointValue {allowPrivilegedContainer := true} ∧
    Legacy.pointValue defaultSCC
      < Legacy.pointValue {allowPrivilegedContainer := true} :=
  ⟨scc_privileged_always_less_restrictive.1 _ _ rfl rfl,
   scc_privileged_always_less_restrictive.2 _ _ rfl rfl⟩

/-- C5: the volume sub-score takes exactly one of the three fixed values:
100000 when the volume set contains HostPath or the wildcard All (whatever
else is present — HostPath plus any other volumes scores like HostPath
alone), else 50000 when it contains any kind outside the trivial set
{Secret, ConfigMap, EmptyDir, DownwardAPI, Projected, None}, else 0; an
empty volume set scores 0. -/
theorem scc_volume_three_values :
    ∀ p : SecurityContextConstraints,
      volumePointValue p =
        (if p.volumes.any isHostVolume then 100000
         else if p.volumes.any (fun v => !isTrivialVolume v) then 50000
         else 0) ∧
      (∀ rest : List FSType,
        volumePointValue {p with volumes := FSType.hostPath :: rest} =
          volumePointValue {p with volumes := [FSType.hostPath]}) ∧
      volumePointValue {p with volumes := []} = 0 := by
  intro p
  refine ⟨?_, fun rest => ?_, ?_⟩
  · unfold volumePointValue
    rw [volumeFlags_spec]
    dsimp only
    cases h : p.volumes.any isHostVolume with
    | true => simp [h]
    | false => simp [h, any_nontrivial_of_no_host h]
  · unfold volumePointValue
    rw [volumeFlags_spec, volumeFlags_spec]
    simp [isHostVolume]
  · simp [volumePointValue, volumeFlags]

/-- C6: the capability sub-score always lies in [0, 10000] — the running
total saturates to 0 below zero and to the ceiling above it — and the total
score is non-negative for every profile. -/
theorem scc_scores_bounded :
    ∀ (p : SecurityContextConstraints) (x : Int),
      0 ≤ capabilitiesPointValue p ∧
      capabilitiesPointValue p ≤ 10000 ∧
      capabilitiesPointValue p =
        clampCap (5000 + 300 * p.defaultAddCapabilities.length
          + allowTerm p.allowedCapabilities
          - dropTerm p.requiredDropCapabilities) ∧
      (x < 0 → clampCap x = 0) ∧
      (10000 < x → clampCap x = 10000) ∧
      0 ≤ pointValue p := by
  intro p x
  refine ⟨capabilitiesPointValue_nonneg p, capabilitiesPointValue_le p,
    capabilitiesPointValue_eq p, fun h => ?_, fun h => ?_, ?_⟩
  · unfold clampCap; split_ifs <;> omega
  · unfold clampCap; split_ifs <;> omega
  · have h5 := volumePointValue_nonneg p
    have h6 := capabilitiesPointValue_nonneg p
    have h7 := seLinuxPoints_nonneg p.seLinuxContextType
    have h8 := runAsUserPoints_nonneg p.runAsUserType
    unfold pointValue
    split_ifs <;> linarith

/-- Witness for C6: the saturation clauses at -5 and 20000. -/
theorem scc_scores_bounded_witness :
    clampCap (-5) = 0 ∧ clampCap 20000 = 10000 :=
  ⟨(scc_scores_bounded defaultSCC (-5)).2.2.2.1 (by decide),
   (scc_scores_bounded defaultSCC 20000).2.2.2.2.1 (by decide)⟩

/-- C7: an unrecognized SELinux or RunAsUser strategy tag contributes
exactly 0 to the score (the scorer stays total — it is a Lean function, so
no failure is possible), and empty volume and capability collections
contribute zero: an empty volume set scores 0 and empty capability lists
leave the capability sub-score at its 5000 baseline. -/
theorem scc_unrecognized_and_empty_contribute_zero :
    (∀ tag, seLinuxPoints (.other tag) = 0) ∧
    (∀ tag, runAsUserPoints (.other tag) = 0) ∧
    (∀ (p : SecurityContextConstraints) (tagS tagU : String),
      pointValue {p with seLinuxContextType := .other tagS,
                         runAsUserType := .other tagU} =
        (if p.allowPrivilegedContainer then 200000 else 0)
          + volumePointValue p + capabilitiesPointValue p) ∧
    (∀ p : SecurityContextConstraints,
      volumePointValue {p with volumes := []} = 0) ∧
    (∀ p : SecurityContextConstraints,
      capabilitiesPointValue
        {p with defaultAddCapabilities := [], allowedCapabilities := [],
                requiredDropCapabilities := []} = 5000) := by
  refine ⟨fun tag => rfl, fun tag => rfl, fun p tagS tagU => ?_,
    fun p => volumePointValue_of_nil _ rfl,
    fun p => capabilitiesPointValue_of_empty _ rfl rfl rfl⟩
  have hv : volumePointValue {p with seLinuxContextType := SELinuxContextStrategyType.other tagS, runAsUserType := RunAsUserStrategyType.other tagU} = volumePointValue p := volumePointValue_congr rfl
  have hc : capabilitiesPointValue {p with seLinuxContextType := SELinuxContextStrategyType.other tagS, runAsUserType := RunAsUserStrategyType.other tagU} = capabilitiesPointValue p := capabilitiesPointValue_congr rfl rfl rfl
  unfold pointValue
  dsimp only
  rw [hv, hc]
  simp [seLinuxPoints, runAsUserPoints]

/-- C10: the comparator is a strict order induced by the score:
`Less s i i` is false, `Less s i j` and `Less s j i` are never both true,
and equal scores compare unordered in both directions. -/
theorem scc_less_strict_order :
    ∀ (s : ByRestrictions) (i j : Nat),
      ByRestrictions.Less s i i = false ∧
      ¬(ByRestrictions.Less s i j = true ∧ ByRestrictions.Less s j i = true) ∧
      (pointValue (List.getD s i defaultSCC)
          = pointValue (List.getD s j defaultSCC) →
        ByRestrictions.Less s i j = false ∧
        ByRestrictions.Less s j i = false) := by
  intro s i j
  unfold ByRestrictions.Less
  refine ⟨?_, fun ⟨h1, h2⟩ => ?_, fun h => ?_⟩
  · simp only [decide_eq_false_iff_not]
    exact lt_irrefl _
  · simp only [decide_eq_true_eq] at h1 h2
    omega
  · constructor <;> simp only [decide_eq_false_iff_not] <;> omega

/-- Witness for C10 on a one-element slice: equal scores (the duplicated
index 0, and index 1 reading the default) compare unordered. -/
theorem scc_less_strict_order_witness :
    ByRestrictions.Less [defaultSCC] 0 1 = false ∧
    ByRestrictions.Less [defaultSCC] 1 0 = false :=
  (scc_less_strict_order [defaultSCC] 0 1).2.2 rfl

/-- C4 counterexample: under the legacy revision's allow branch only
`kapi.CapabilityAll` (`"*"`) is a wildcard, so an otherwise-default profile
with `AllowedCapabilities = ["ALL"]` is charged per-capability (sub-score
510) while `["*"]` receives the +300 wildcard weight (sub-score 800): the
claimed equivalence fails there, for the sub-scores and for the totals. -/
theorem scc_allow_wildcard_tokens_legacy_counterexample :
    Legacy.capabilitiesPointValue {allowedCapabilities := ["ALL"]} = 510 ∧
    Legacy.capabilitiesPointValue {allowedCapabilities := ["*"]} = 800 ∧
    Legacy.capabilitiesPointValue {allowedCapabilities := ["ALL"]} ≠
      Legacy.capabilitiesPointValue {allowedCapabilities := ["*"]} ∧
    Legacy.pointValue {allowedCapabilities := ["ALL"]} ≠
      Legacy.pointValue {allowedCapabilities := ["*"]} := by
  refine ⟨by decide, by decide, by decide, by decide⟩

/-- C4 amended: under the newer revision's scorer, profiles identical
except that one allows capability `"ALL"` and the other `"*"` get identical
capability sub-scores and identical total scores; under the legacy
revision's scorer, where only `"*"` is the wildcard, the two lists differ
on an otherwise-default profile — `["ALL"]` is charged per-capability
(510) while `["*"]` takes the wildcard weight (800). -/
theorem scc_allow_wildcard_tokens_equal :
    (∀ p : SecurityContextConstraints,
      capabilitiesPointValue {p with allowedCapabilities := ["ALL"]} =
        capabilitiesPointValue {p with allowedCapabilities := ["*"]} ∧
      pointValue {p with allowedCapabilities := ["ALL"]} =
        pointValue {p with allowedCapabilities := ["*"]}) ∧
    Legacy.capabilitiesPointValue {allowedCapabilities := ["ALL"]} = 510 ∧
    Legacy.capabilitiesPointValue {allowedCapabilities := ["*"]} = 800 := by
  refine ⟨fun p => ?_, by decide, by decide⟩
  have hcap : capabilitiesPointValue {p with allowedCapabilities := ["ALL"]} =
      capabilitiesPointValue {p with allowedCapabilities := ["*"]} := by
    rw [capabilitiesPointValue_eq, capabilitiesPointValue_eq]
    dsimp only
    rw [allowTerm_wildcard (by decide), allowTerm_wildcard (by decide)]
  have hv : volumePointValue {p with allowedCapabilities := ["ALL"]} =
      volumePointValue {p with allowedCapabilities := ["*"]} :=
    volumePointValue_congr rfl
  refine ⟨hcap, ?_⟩
  unfold pointValue
  dsimp only
  rw [hcap, hv]

/-- C9: when `AllowedCapabilities` contains a wildcard token, the allow
term is pinned at 4000, so any two wildcard-containing allowed lists give
the same capability sub-score with all other fields fixed — adding or
removing non-wildcard entries changes nothing. -/
theorem scc_allow_wildcard_length_independent :
    ∀ (p : SecurityContextConstraints) (l1 l2 : List Capability),
      (hasCap capabilityAll l1 || hasCap "ALL" l1) = true →
      (hasCap capabilityAll l2 || hasCap "ALL" l2) = true →
      capabilitiesPointValue {p with allowedCapabilities := l1} =
        capabilitiesPointValue {p with allowedCapabilities := l2} := by
  intro p l1 l2 h1 h2
  rw [capabilitiesPointValue_eq, capabilitiesPointValue_eq]
  dsimp only
  rw [allowTerm_wildcard h1, allowTerm_wildcard h2]

/-- Witness for C9: `["*"]` scores like `["ALL", "KILL"]`. -/
theorem scc_allow_wildcard_length_independent_witness :
    capabilitiesPointValue {allowedCapabilities := ["*"]} =
      capabilitiesPointValue {allowedCapabilities := ["ALL", "KILL"]} :=
  scc_allow_wildcard_length_independent defaultSCC ["*"] ["ALL", "KILL"]
    (by decide) (by decide)

/-- C8: only the literal `"ALL"` token triggers the fixed 3000 drop-all
subtraction; `"*"` in `RequiredDropCapabilities` counts as one ordinary
capability at 50 points, so `["ALL"]` and `["*"]` drop lists score
differently (2000 vs 4950 on an otherwise-default profile). -/
theorem scc_drop_wildcard_literal_only :
    (∀ l : List Capability,
      hasCap "ALL" l = false → dropTerm l = 50 * l.length) ∧
    hasCap "ALL" ["*"] = false ∧
    dropTerm ["*"] = 50 ∧
    capabilitiesPointValue {requiredDropCapabilities := ["ALL"]} = 2000 ∧
    capabilitiesPointValue {requiredDropCapabilities := ["*"]} = 4950 ∧
    capabilitiesPointValue {requiredDropCapabilities := ["ALL"]} ≠
      capabilitiesPointValue {requiredDropCapabilities := ["*"]} := by
  refine ⟨fun l h => ?_, by decide, by decide, by decide, by decide, by decide⟩
  simp [dropTerm, h]

/-- Witness for C8: a drop list without `"ALL"` is charged per entry. -/
theorem scc_drop_wildcard_literal_only_witness :
    dropTerm ["KILL", "MKNOD"] = 50 * (["KILL", "MKNOD"] : List Capability).length :=
  scc_drop_wildcard_literal_only.1 ["KILL", "MKNOD"] (by decide)

/-- C2 counterexample: the MustRunAs SELinux weight is 10000, and the
capability sub-score reaches exactly 10000 (base 5000 + 4 default-add
capabilities at 300 + allow-all 4000 = 10200, clamped to 10000), so the
MustRunAs weight does NOT strictly exceed the maximum capability
sub-score. -/
theorem scc_selinux_weight_counterexample :
    ¬ (capabilitiesPointValue {defaultAddCapabilities := ["A", "B", "C", "D"], allowedCapabilities := ["ALL"]}
      < seLinuxPoints SELinuxContextStrategyType.mustRunAs) := by
  decide

/-- C2 amended: the RunAsAny SELinux weight (40000) strictly exceeds every
capability sub-score; the MustRunAs weight (10000) is greater than or equal
to every capability sub-score (equality is attained, so not strict); and
for profiles identical except that A's SELinux strategy is MustRunAs or
RunAsAny while B's is unrecognized, `score(A) > score(B)`. -/
theorem scc_selinux_dominates_capabilities :
    (∀ p : SecurityContextConstraints,
      capabilitiesPointValue p < seLinuxPoints SELinuxContextStrategyType.runAsAny) ∧
    (∀ p : SecurityContextConstraints,
      capabilitiesPointValue p ≤ seLinuxPoints SELinuxContextStrategyType.mustRunAs) ∧
    (∀ (p : SecurityContextConstraints) (tag : String)
        (t : SELinuxContextStrategyType),
      t = SELinuxContextStrategyType.runAsAny ∨
        t = SELinuxContextStrategyType.mustRunAs →
      pointValue {p with seLinuxContextType := SELinuxContextStrategyType.other tag}
        < pointValue {p with seLinuxContextType := t}) := by
  refine ⟨fun p => ?_, fun p => ?_, fun p tag t ht => ?_⟩
  · have h := capabilitiesPointValue_le p
    simp only [seLinuxPoints]
    linarith
  · simpa [seLinuxPoints] using capabilitiesPointValue_le p
  · have hv : volumePointValue {p with seLinuxContextType := SELinuxContextStrategyType.other tag} = volumePointValue {p with seLinuxContextType := t} := volumePointValue_congr rfl
    have hc : capabilitiesPointValue {p with seLinuxContextType := SELinuxContextStrategyType.other tag} = capabilitiesPointValue {p with seLinuxContextType := t} := capabilitiesPointValue_congr rfl rfl rfl
    unfold pointValue
    dsimp only
    rw [hv, hc]
    rcases ht with h | h <;> subst h <;> simp [seLinuxPoints]

/-- Witness for C2 amended: the zero-value SCC against RunAsAny. -/
theorem scc_selinux_dominates_capabilities_witness :
    pointValue {seLinuxContextType := SELinuxContextStrategyType.other "x"}
      < pointValue {seLinuxContextType := SELinuxContextStrategyType.runAsAny} :=
  scc_selinux_dominates_capabilities.2.2 defaultSCC "x"
    SELinuxContextStrategyType.runAsAny (Or.inl rfl)

set_option maxRecDepth 10000 in
/-- C3 counterexample: appending the wildcard `"ALL"` to an allowed list of
401 plain capabilities lowers the capability sub-score from 9010 to 9000
(no clamp involved), and appending `"ALL"` to a drop list of 61 plain
capabilities raises it from 1950 to 2000 — both directions of the claimed
monotonicity fail on wildcard appends. -/
theorem scc_capability_monotonicity_counterexample :
    capabilitiesPointValue
        {allowedCapabilities := List.replicate 401 "X" ++ ["ALL"]} <
      capabilitiesPointValue {allowedCapabilities := List.replicate 401 "X"} ∧
    capabilitiesPointValue
        {requiredDropCapabilities := List.replicate 61 "X"} <
      capabilitiesPointValue
        {requiredDropCapabilities := List.replicate 61 "X" ++ ["ALL"]} := by
  decide

/-- C3 amended: appending an entry to `DefaultAddCapabilities` never
decreases the capability sub-score; appending a non-wildcard entry (neither
`"*"` nor `"ALL"`) to `AllowedCapabilities` never decreases it; and
appending an entry other than `"ALL"` to `RequiredDropCapabilities` never
increases it.  (Wildcard appends can break monotonicity, as the
counterexample shows.) -/
theorem scc_capability_monotonicity :
    ∀ (p : SecurityContextConstraints) (c : Capability),
      capabilitiesPointValue p ≤
        capabilitiesPointValue
          {p with defaultAddCapabilities := p.defaultAddCapabilities ++ [c]} ∧
      (c ≠ capabilityAll → c ≠ "ALL" →
        capabilitiesPointValue p ≤
          capabilitiesPointValue
            {p with allowedCapabilities := p.allowedCapabilities ++ [c]}) ∧
      (c ≠ "ALL" →
        capabilitiesPointValue
            {p with requiredDropCapabilities := p.requiredDropCapabilities ++ [c]}
          ≤ capabilitiesPointValue p) := by
  intro p c
  refine ⟨?_, fun h1 h2 => ?_, fun h => ?_⟩
  · rw [capabilitiesPointValue_eq, capabilitiesPointValue_eq]
    dsimp only
    apply clampCap_mono
    simp only [List.length_append, List.length_cons, List.length_nil]
    push_cast
    omega
  · rw [capabilitiesPointValue_eq, capabilitiesPointValue_eq]
    dsimp only
    apply clampCap_mono
    have hmono := allowTerm_append_mono p.allowedCapabilities c h1 h2
    omega
  · rw [capabilitiesPointValue_eq, capabilitiesPointValue_eq]
    dsimp only
    apply clampCap_mono
    have hmono := dropTerm_append_mono p.requiredDropCapabilities c h
    omega

/-- Witness for C3 amended at the zero-value SCC and the plain capability
`"KILL"`. -/
theorem scc_capability_monotonicity_witness :
    capabilitiesPointValue defaultSCC ≤
      capabilitiesPointValue {allowedCapabilities := ["KILL"]} ∧
    capabilitiesPointValue {requiredDropCapabilities := ["KILL"]} ≤
      capabilitiesPointValue defaultSCC :=
  ⟨(scc_capability_monotonicity defaultSCC "KILL").2.1 (by decide) (by decide),
   (scc_capability_monotonicity defaultSCC "KILL").2.2 (by decide)⟩
